import Mathlib

/-!
Verification development for the mpv-winbuild orchestrator scripts
(`build_v2_clang.py`, the canonical explicit-dependency variant, and
`build.py`, the legacy list-order variant).  The Python sources are
embedded shallowly: the per-package staleness decision loop, the
completion-marker lifecycle, the pkg-config patching string transforms
and the final bin-directory cleanup become executable Lean functions,
and the spec-level properties are proved (or refuted) about them.
-/

namespace MpvBuild

/-- Worker for `pyIn`: does the needle occur at any position? -/
def containsAux (needle : List Char) : List Char → Bool
  | [] => needle.isEmpty
  | c :: cs => needle.isPrefixOf (c :: cs) || containsAux needle cs

/-- Python substring test: `needle in hay`. -/
def pyIn (needle hay : String) : Bool :=
  containsAux needle.data hay.data

/-- Worker for `pyReplace`: left-to-right non-overlapping replacement on
character lists, fueled by the remaining length. -/
def replaceAux (pat rep : List Char) : Nat → List Char → List Char
  | _, [] => []
  | 0, s => s
  | fuel + 1, c :: cs =>
    if pat.isPrefixOf (c :: cs) then
      rep ++ replaceAux pat rep fuel ((c :: cs).drop pat.length)
    else
      c :: replaceAux pat rep fuel cs

/-- Python `str.replace(pat, rep)`: replace every non-overlapping
occurrence, scanning left to right.  The scripts never call it with an
empty pattern; we return the string unchanged in that case. -/
def pyReplace (s pat rep : String) : String :=
  if pat.isEmpty then s else ⟨replaceAux pat.data rep.data s.data.length s.data⟩

/-- Flag-append half of `patch_pc` in build.py (lines 160-163): if the
flags string is not already a substring of the content, splice it after
the first-present of the required-libraries fields, or append a fresh
field. -/
def addLibs (c libs : String) : String :=
  if pyIn libs c then c
  else if pyIn "Libs.private:" c then pyReplace c "Libs.private:" ("Libs.private: " ++ libs)
  else if pyIn "Libs:" c then pyReplace c "Libs:" ("Libs: " ++ libs)
  else c ++ "\nLibs: " ++ libs

/-- Dynamic-loading-flag strip half of `patch_pc` in build.py (line 165):
delete every occurrence of the dynamic-loader flag. -/
def stripLdl (c : String) : String :=
  if pyIn "-ldl" c then pyReplace c "-ldl" "" else c

/-- Content transformation of `patch_pc` in build.py lines 156-169
(the metadata-flag-append operation of the spec). -/
def patchPcContent (c libs : String) : String :=
  stripLdl (addLibs c libs)

/-- File-level `patch_pc` (build.py line 156-157, build_v2_clang.py line
176-177): if the path does not name an existing file the function
returns at once; otherwise it rewrites exactly that file with the
patched content.  The file system is a partial map from paths to
contents. -/
def patchPcFile (fs : String → Option String) (path libs : String) : String → Option String :=
  match fs path with
  | none => fs
  | some c => fun q => if q = path then some (patchPcContent c libs) else fs q

end MpvBuild

namespace MpvBuild.V2

/-- One entry of the `deps` table of build_v2_clang.py (lines 595-631):
the package name, whether it has a version-control URL (`u` is not
None), and its `depends_on` list. -/
structure Pkg where
  name : String
  hasUrl : Bool
  dependsOn : List String
deriving DecidableEq, Repr

/-- The `deps` list of build_v2_clang.py lines 595-631, in declaration
order, restricted to the fields the orchestrator loop consults. -/
def deps : List Pkg := [
  ⟨"expat", true, []⟩,
  ⟨"gettext", false, []⟩,
  ⟨"bzip2", true, []⟩,
  ⟨"zlib", true, []⟩,
  ⟨"xz", false, []⟩,
  ⟨"zimg", true, []⟩,
  ⟨"libpng", true, ["zlib"]⟩,
  ⟨"libjpeg-turbo", true, ["zlib"]⟩,
  ⟨"freetype", true, ["libpng", "bzip2", "zlib"]⟩,
  ⟨"libiconv", false, []⟩,
  ⟨"fribidi", true, []⟩,
  ⟨"harfbuzz", true, ["freetype"]⟩,
  ⟨"fontconfig", true, ["freetype", "expat", "libiconv", "gettext"]⟩,
  ⟨"libass", true, ["freetype", "fribidi", "harfbuzz", "fontconfig"]⟩,
  ⟨"lcms2", true, []⟩,
  ⟨"libepoxy", true, []⟩,
  ⟨"spirv-headers", true, []⟩,
  ⟨"spirv-cross", true, []⟩,
  ⟨"glslang", true, []⟩,
  ⟨"spirv-tools", true, []⟩,
  ⟨"shaderc", true, ["glslang", "spirv-tools", "spirv-headers"]⟩,
  ⟨"ffnvcodec", true, []⟩,
  ⟨"dav1d", true, []⟩,
  ⟨"libplacebo", true, ["shaderc", "lcms2", "libepoxy", "glslang"]⟩,
  ⟨"luajit", true, []⟩,
  ⟨"uchardet", true, []⟩,
  ⟨"libsoxr", true, []⟩,
  ⟨"fftw", false, []⟩,
  ⟨"libsamplerate", true, []⟩,
  ⟨"rubberband", true, ["fftw", "libsamplerate"]⟩,
  ⟨"libdvdcss", true, []⟩,
  ⟨"libdvdread", true, ["libdvdcss"]⟩,
  ⟨"libdvdnav", true, ["libdvdread"]⟩,
  ⟨"libbluray", true, ["libdvdread", "fontconfig", "freetype"]⟩,
  ⟨"libarchive", true, ["zlib", "bzip2", "xz"]⟩]

/-- The `output_check_map` of build_v2_clang.py lines 674-693 maps four
package names to None (no integrity check); every other package gets a
check path (an explicit entry or the default pkgconfig file). -/
def hasOutputCheck (n : String) : Bool :=
  !(["gettext", "glslang", "spirv-tools", "spirv-headers"].contains n)

/-- Command-line mode booleans of build_v2_clang.py line 65. -/
structure Flags where
  clean : Bool
  skipUpdates : Bool
  forceMpv : Bool

/-- Abstraction of the on-disk state read by the orchestrator loop:
whether the completion marker `.built_<n>` exists, whether the package
output-check path exists under the install root, and whether the
package source tree under `repositories/` exists. -/
structure Disk where
  marker : String → Bool
  artifact : String → Bool
  srcDir : String → Bool

/-- Marker presence at build_v2_clang.py line 704, after the integrity
check of lines 695-701 removed the marker of any checked package whose
output file is missing. -/
def effMarker (d : Disk) (n : String) : Bool :=
  d.marker n && (!(hasOutputCheck n) || d.artifact n)

/-- Whether lines 699-701 delete the completion marker: the check path
is missing although the marker exists. -/
def markerRemovedByCheck (d : Disk) (n : String) : Bool :=
  d.marker n && (hasOutputCheck n && !(d.artifact n))

/-- The per-package staleness predicate of build_v2_clang.py lines
703-704: `clean_mode or not os.path.exists(marker) or source_changed or
dep_changed`, where the marker was already removed by the integrity
check when the output file is missing, and `dep_changed` is true when
some declared dependency is in `updated_libs`. -/
def staleness (fl : Flags) (d : Disk) (sc : String → Bool) (updated : List String) (p : Pkg) : Bool :=
  fl.clean || !(effMarker d p.name) || sc p.name || p.dependsOn.any (fun q => updated.contains q)

/-- `updated_libs` after one package is processed: the name is added
exactly when the package rebuilt (line 801). -/
def stepUpdated (fl : Flags) (d : Disk) (sc : String → Bool) (u : List String) (p : Pkg) : List String :=
  if staleness fl d sc u p then u ++ [p.name] else u

/-- Decision trace of the main dependency loop: for each package in
order, the staleness verdict (true = rebuild branch, false = skip
branch), threading `updated_libs`. -/
def decisionsAux (fl : Flags) (d : Disk) (sc : String → Bool) : List Pkg → List String → List (String × Bool)
  | [], _ => []
  | p :: rest, u =>
    (p.name, staleness fl d sc u p) :: decisionsAux fl d sc rest (stepUpdated fl d sc u p)

/-- Final `updated_libs` of the main dependency loop. -/
def updatedAux (fl : Flags) (d : Disk) (sc : String → Bool) : List Pkg → List String → List String
  | [], u => u
  | p :: rest, u => updatedAux fl d sc rest (stepUpdated fl d sc u p)

/-- Decision trace of a full run of the dependency loop on `deps`,
starting with empty `updated_libs` (line 633). -/
def decisions (fl : Flags) (d : Disk) (sc : String → Bool) : List (String × Bool) :=
  decisionsAux fl d sc deps []

/-- Final `updated_libs` of a full run. -/
def updatedFinal (fl : Flags) (d : Disk) (sc : String → Bool) : List String :=
  updatedAux fl d sc deps []

/-- ffmpeg staleness, build_v2_clang.py line 843: `clean_mode or not
os.path.exists(f_mark) or f_changed or updated_libs` (a nonempty set is
truthy). -/
def ffmpegStale (fl : Flags) (marker fChanged : Bool) (updated : List String) : Bool :=
  fl.clean || !marker || fChanged || !updated.isEmpty

/-- mpv staleness, build_v2_clang.py line 874: `clean_mode or not
os.path.exists(m_mark) or m_changed or updated_libs or force_mpv`. -/
def mpvStale (fl : Flags) (marker mChanged : Bool) (updated : List String) : Bool :=
  fl.clean || !marker || mChanged || !updated.isEmpty || fl.forceMpv

/-- The `--clean` wipe of build_v2_clang.py lines 487-489: the installed
tree (markers and artifacts) and the working tree are removed before
the loop; the repositories tree is untouched. -/
def afterCleanWipe (fl : Flags) (d : Disk) : Disk :=
  if fl.clean then ⟨fun _ => false, fun _ => false, d.srcDir⟩ else d

/-- The process runner `run` of build_v2_clang.py lines 87-132, viewed
through the exit status of the executed command: a nonzero status
raises `CalledProcessError`, a zero status returns normally. -/
def runCmd (code : Nat) : Except Nat Unit :=
  if code == 0 then .ok () else .error code

/-- `mrun` (line 134-135): run the commands in order; the first raised
error aborts the remaining commands. -/
def mrunCmds : List Nat → Except Nat Unit
  | [] => .ok ()
  | c :: cs =>
    match runCmd c with
    | .ok _ => mrunCmds cs
    | .error e => .error e

/-- Unhandled exceptions that abort the whole run: a build command with
nonzero status inside a package rebuild, or `shutil.copytree` raising
because the package source tree is absent (line 706). -/
inductive RunError where
  | cmdFailed (pkg : String) (code : Nat)
  | copyFailed (pkg : String)
deriving DecidableEq, Repr

/-- Execution of one iteration of the main dependency loop, with the
exit statuses of the rebuild commands made explicit.  On the rebuild
branch the working copy is created first (aborting when the source tree
is absent), then the build commands run (aborting on the first nonzero
status), and only then is the completion marker written and the package
recorded as rebuilt.  On the skip branch nothing happens.  Returns
(marker present after, rebuilt). -/
def execPkg (fl : Flags) (d : Disk) (sc : String → Bool) (u : List String) (p : Pkg)
    (codes : List Nat) : Except RunError (Bool × Bool) :=
  if staleness fl d sc u p then
    if d.srcDir p.name then
      match mrunCmds codes with
      | .ok _ => .ok (true, true)
      | .error e => .error (.cmdFailed p.name e)
    else .error (.copyFailed p.name)
  else .ok (effMarker d p.name, false)

/-- Execution of the main dependency loop with per-package build exit
statuses; an error in any package aborts the whole loop (spec: terminal
state is either full success or a raised build failure). -/
def execDepsAux (fl : Flags) (d : Disk) (sc : String → Bool) (codes : String → List Nat) :
    List Pkg → List String → Except RunError (List (String × Bool) × List String)
  | [], u => .ok ([], u)
  | p :: rest, u =>
    match execPkg fl d sc u p (codes p.name) with
    | .error e => .error e
    | .ok (_, rebuilt) =>
      match execDepsAux fl d sc codes rest (if rebuilt then u ++ [p.name] else u) with
      | .error e => .error e
      | .ok (l, uf) => .ok ((p.name, rebuilt) :: l, uf)

/-- Execution of a full run of the dependency loop. -/
def execDeps (fl : Flags) (d : Disk) (sc : String → Bool) (codes : String → List Nat) :
    Except RunError (List (String × Bool) × List String) :=
  execDepsAux fl d sc codes deps []

/-- Outcome of `git_sync` of build_v2_clang.py lines 143-174, abstracted
to the changed verdict and the number of network commands issued.
`gitDirExists` is the test of line 144, `headMoved` whether the pull
moved HEAD (line 171).  With updates skipped the function returns False
at once, issuing no network command, whether or not the checkout
exists (lines 145-147 and 153-155). -/
structure SyncOutcome where
  changed : Bool
  networkCmds : Nat
deriving DecidableEq, Repr

/-- `git_sync` of build_v2_clang.py, see `SyncOutcome`. -/
def syncPkg (skipUpdates gitDirExists headMoved : Bool) : SyncOutcome :=
  if !gitDirExists then
    if skipUpdates then ⟨false, 0⟩ else ⟨true, 1⟩
  else if skipUpdates then ⟨false, 0⟩
  else ⟨headMoved, 2⟩

/-- Install-root file effects of the rebuild branch of the v2 loop
(lines 705-837), abstracted to one token per step: artifact purge,
working-copy creation, build/install, pkgconfig patching, marker
write. -/
def rebuildEffects (n : String) : List String :=
  ["purge:" ++ n, "copytree:" ++ n, "build-install:" ++ n, "patch-pc:" ++ n, "marker:" ++ n]

/-- Install-root file effects of one iteration of the v2 loop for one
package: the integrity check may delete the marker (lines 699-701),
then either the rebuild branch runs or the skip branch logs a line and
touches nothing (line 838). -/
def pkgEffects (fl : Flags) (d : Disk) (sc : String → Bool) (u : List String) (p : Pkg) : List String :=
  (if markerRemovedByCheck d p.name then ["remove-marker:" ++ p.name] else []) ++
    (if staleness fl d sc u p then rebuildEffects p.name else [])

/-- Disk state of the corruption scenario: every completion marker
present, every output-check path present except the one package `t`. -/
def corruptionDisk (t : String) : Disk :=
  ⟨fun _ => true, fun n => n != t, fun _ => true⟩

/-- Decision trace of a run on the corruption scenario for package `t`:
no clean flag and no source changes, only the output artifact of `t`
missing. -/
def scenarioDecisions (t : String) : List (String × Bool) :=
  decisionsAux ⟨false, false, false⟩ (corruptionDisk t) (fun _ => false) deps []

/-- Transitive downstream closure of a package along the declared
`depends_on` edges, computed in declaration order (the package itself
included). -/
def downstreamAux : List Pkg → List String → List String
  | [], acc => acc
  | p :: rest, acc =>
    downstreamAux rest (if p.dependsOn.any (fun q => acc.contains q) then acc ++ [p.name] else acc)

/-- Downstream closure of one package name over the v2 dependency
list. -/
def downstream (t : String) : List String :=
  downstreamAux deps [t]

end MpvBuild.V2

namespace MpvBuild.V1

/-- Names of the `deps` list of build.py lines 360-392, in declaration
order. -/
def depNames : List String := [
  "expat", "gettext", "bzip2", "zlib", "xz", "zimg", "libpng",
  "libjpeg-turbo", "freetype", "libiconv", "fribidi", "harfbuzz",
  "fontconfig", "libass", "lcms2", "libepoxy", "spirv-headers",
  "spirv-cross", "glslang", "spirv-tools", "shaderc", "ffnvcodec",
  "dav1d", "libplacebo", "luajit", "uchardet", "libsoxr", "fftw",
  "libsamplerate", "rubberband"]

/-- The list-order propagation loop of build.py lines 394-558:
`stale0 n` collects the per-package part of the rebuild condition
(clean mode, missing marker, own source changed, corruption check);
`deps_rebuilt` (line 486 and 557) forces every later package to
rebuild once any package rebuilt. -/
def runOrderAux (stale0 : String → Bool) : List String → Bool → List (String × Bool)
  | [], _ => []
  | n :: rest, depsRebuilt =>
    (n, stale0 n || depsRebuilt) :: runOrderAux stale0 rest (depsRebuilt || (stale0 n || depsRebuilt))

/-- Decision trace of a full run of the build.py dependency loop. -/
def runOrder (stale0 : String → Bool) : List (String × Bool) :=
  runOrderAux stale0 depNames false

/-- Install-root file effects of `create_pc` in build.py lines 171-178:
remove a stale lib64 copy when present, then write the pkgconfig file
unconditionally. -/
def createPcEffects (ex : String → Bool) (name : String) : List String :=
  (if ex ("lib64/pkgconfig/" ++ name ++ ".pc") then
      ["remove:lib64/pkgconfig/" ++ name ++ ".pc"] else []) ++
    ["write:lib/pkgconfig/" ++ name ++ ".pc"]

/-- Install-root file effects of `patch_pc` in build.py lines 156-169:
the file is rewritten exactly when it exists. -/
def patchPcEffects (ex : String → Bool) (path : String) : List String :=
  if ex path then ["write:" ++ path] else []

/-- Install-root file effects of the per-package fixups of build.py
lines 560-600, which run after the skip/rebuild branch for every
package, skipped or not.  `ex` tells which install-root paths exist,
`contentHas` whether a file content contains a substring (used by the
libplacebo shaderc rename of lines 583-587). -/
def postStep (n : String) (ex : String → Bool) (contentHas : String → String → Bool) : List String :=
  if n = "gettext" then createPcEffects ex "libintl"
  else if n = "libiconv" then createPcEffects ex "libiconv"
  else if n = "fontconfig" then patchPcEffects ex "lib/pkgconfig/fontconfig.pc"
  else if n = "freetype" then patchPcEffects ex "lib/pkgconfig/freetype2.pc"
  else if n = "libass" then patchPcEffects ex "lib/pkgconfig/libass.pc"
  else if n = "shaderc" then
    createPcEffects ex "shaderc" ++
      (if ex "lib/libshaderc_combined.a" then
        ["write:lib/libshaderc_shared.a", "write:lib/libshaderc.a"] else [])
  else if n = "spirv-cross" then
    createPcEffects ex "spirv-cross-c-shared" ++
      (if ex "lib/libspirv-cross-c.a" then ["write:lib/libspirv-cross-c-shared.a"] else [])
  else if n = "libplacebo" then
    patchPcEffects ex "lib/pkgconfig/libplacebo.pc" ++
      (if ex "lib/pkgconfig/libplacebo.pc" &&
          contentHas "lib/pkgconfig/libplacebo.pc" "shaderc_shared" then
        ["write:lib/pkgconfig/libplacebo.pc"] else [])
  else if n = "harfbuzz" then patchPcEffects ex "lib/pkgconfig/harfbuzz.pc"
  else if n = "dav1d" then patchPcEffects ex "lib/pkgconfig/dav1d.pc"
  else if n = "luajit" then
    patchPcEffects ex "lib/pkgconfig/luajit.pc" ++
      (if ex "lib/pkgconfig/luajit.pc" then
        (if ex "lib/libluajit.a" then ["write:lib/libluajit-5.1.a"] else []) ++
          (["luajit-5.1.pc", "lua51.pc", "lua.pc"].filterMap (fun a =>
            if ex ("lib/pkgconfig/" ++ a) then none else some ("write:lib/pkgconfig/" ++ a)))
      else [])
  else if n = "rubberband" then patchPcEffects ex "lib/pkgconfig/rubberband.pc"
  else []

/-- Install-root file effects of one iteration of the build.py loop
body for one package: the rebuild branch when the decision is rebuild
(abstracted to one token), nothing on the skip branch (line 558), and
then the unconditional per-package fixups of lines 560-600. -/
def pkgEffects (rebuild : Bool) (n : String) (ex : String → Bool)
    (contentHas : String → String → Bool) : List String :=
  (if rebuild then ["rebuild:" ++ n] else []) ++ postStep n ex contentHas

end MpvBuild.V1

namespace MpvBuild

/-- The `allowed_files` list of build_v2_clang.py line 927. -/
def allowedBinFiles : List String :=
  ["mpv.exe", "mpv.com", "ffmpeg.exe", "ffplay.exe", "ffprobe.exe"]

/-- The final bin cleanup pass of build_v2_clang.py lines 929-937:
every entry of the bin directory (file or subdirectory) that is not in
the allow-list is removed; the survivors are exactly the allowed
entries that were present. -/
def binCleanup (entries : List String) : List String :=
  entries.filter (fun i => decide (i ∈ allowedBinFiles))

end MpvBuild

namespace MpvBuild

/-- Any dependency test against an empty `updated_libs` is false. -/
theorem any_contains_nil (ds : List String) :
    (ds.any fun q => ([] : List String).contains q) = false := by
  induction ds with
  | nil => rfl
  | cons a t ih => simp [ih]

/-- When the clean flag is off and every package in the list has its
marker, its output artifact and an unchanged source, the loop takes the
skip branch everywhere and `updated_libs` stays empty. -/
theorem decisionsAux_all_skip (fl : V2.Flags) (d : V2.Disk) (sc : String → Bool)
    (hclean : fl.clean = false) :
    ∀ l : List V2.Pkg,
      (∀ p ∈ l, d.marker p.name = true ∧ d.artifact p.name = true ∧ sc p.name = false) →
      V2.decisionsAux fl d sc l [] = l.map (fun p => (p.name, false)) ∧
        V2.updatedAux fl d sc l [] = [] := by
  intro l
  induction l with
  | nil => intro _; exact ⟨rfl, rfl⟩
  | cons p rest ih =>
    intro hl
    obtain ⟨hm, ha, hs⟩ := hl p (List.mem_cons_self p rest)
    have hst : V2.staleness fl d sc [] p = false := by
      simp [V2.staleness, V2.effMarker, hclean, hm, ha, hs, any_contains_nil]
    have hstep : V2.stepUpdated fl d sc [] p = [] := by
      simp [V2.stepUpdated, hst]
    have ihr := ih (fun q hq => hl q (List.mem_cons_of_mem p hq))
    constructor
    · simp [V2.decisionsAux, hst, hstep, ihr.1]
    · simp [V2.updatedAux, hstep, ihr.2]

end MpvBuild

namespace MpvBuild

/-- C1 (amended): in every starting state in which every package, and
both top-level projects, has a completion marker, every package output
artifact is present, no source changed and the clean flag is absent, a
run of the v2 orchestrator performs zero rebuilds: every package in the
dependency list takes the skip branch, `updated_libs` stays empty,
ffmpeg takes the skip branch, and mpv takes the skip branch absent the
force flag. -/
theorem c1_second_run_all_skip (fl : V2.Flags) (d : V2.Disk) (sc : String → Bool)
    (fChanged mChanged : Bool)
    (hclean : fl.clean = false)
    (hpkgs : ∀ p ∈ V2.deps, d.marker p.name = true ∧ d.artifact p.name = true ∧ sc p.name = false)
    (hfm : d.marker "ffmpeg" = true) (hmm : d.marker "mpv" = true)
    (hfc : fChanged = false) (hmc : mChanged = false) :
    V2.decisions fl d sc = V2.deps.map (fun p => (p.name, false)) ∧
      V2.updatedFinal fl d sc = [] ∧
      V2.ffmpegStale fl (d.marker "ffmpeg") fChanged (V2.updatedFinal fl d sc) = false ∧
      (fl.forceMpv = false →
        V2.mpvStale fl (d.marker "mpv") mChanged (V2.updatedFinal fl d sc) = false) := by
  obtain ⟨h1, h2⟩ := decisionsAux_all_skip fl d sc hclean V2.deps hpkgs
  refine ⟨h1, h2, ?_, ?_⟩
  · show V2.ffmpegStale fl _ _ _ = false
    rw [show V2.updatedFinal fl d sc = [] from h2]
    simp [V2.ffmpegStale, hclean, hfm, hfc]
  · intro hforce
    rw [show V2.updatedFinal fl d sc = [] from h2]
    simp [V2.mpvStale, hclean, hmm, hmc, hforce]

/-- Witness for C1: a concrete fully built, unchanged state takes the
skip branch for all 35 packages. -/
theorem c1_witness :
    V2.decisions ⟨false, false, false⟩ ⟨fun _ => true, fun _ => true, fun _ => true⟩
        (fun _ => false) = V2.deps.map (fun p => (p.name, false)) :=
  (c1_second_run_all_skip ⟨false, false, false⟩ ⟨fun _ => true, fun _ => true, fun _ => true⟩
    (fun _ => false) false false rfl (fun _ _ => ⟨rfl, rfl, rfl⟩) rfl rfl rfl rfl).1

/-- Counterexample to C1 as stated: a state in which every package
(and both top-level projects) has a completion marker, no source
changed and the clean flag is absent, yet the run rebuilds expat,
because the integrity check deletes the expat marker when its output
artifact is missing.  The claim only lists clean flag, missing marker,
source change and dependency rebuild as rebuild causes, so it asserts
the skip branch here. -/
theorem c1_counterexample :
    ((⟨false, false, false⟩ : V2.Flags).clean = false) ∧
      (V2.deps.all (fun p => (V2.corruptionDisk "expat").marker p.name) = true) ∧
      ((V2.corruptionDisk "expat").marker "ffmpeg" = true) ∧
      ((V2.corruptionDisk "expat").marker "mpv" = true) ∧
      (V2.deps.all (fun p => !((fun _ => false : String → Bool) p.name)) = true) ∧
      (("expat", true) ∈
        V2.decisions ⟨false, false, false⟩ (V2.corruptionDisk "expat") (fun _ => false)) := by
  decide

end MpvBuild

namespace MpvBuild

/-- Every name in a decision trace is a package name of the processed
list. -/
theorem mem_names_of_mem_decisionsAux (fl : V2.Flags) (d : V2.Disk) (sc : String → Bool) :
    ∀ (l : List V2.Pkg) (u : List String) (n : String) (b : Bool),
      (n, b) ∈ V2.decisionsAux fl d sc l u → n ∈ l.map V2.Pkg.name := by
  intro l
  induction l with
  | nil => intro u n b h; simp [V2.decisionsAux] at h
  | cons p rest ih =>
    intro u n b h
    rcases List.mem_cons.mp h with h1 | h1
    · simp at h1
      simp [h1.1]
    · simp only [List.map_cons, List.mem_cons]
      exact Or.inr (ih _ n b h1)

/-- Once a declared dependency is in `updated_libs`, the dependent
package rebuilds when its turn comes. -/
theorem rebuild_of_dep_in_updated (fl : V2.Flags) (d : V2.Disk) (sc : String → Bool) :
    ∀ (l : List V2.Pkg) (u : List String) (P : V2.Pkg) (q : String),
      P ∈ l → q ∈ u → q ∈ P.dependsOn →
      (P.name, true) ∈ V2.decisionsAux fl d sc l u := by
  intro l
  induction l with
  | nil => intro u P q hP; simp at hP
  | cons p rest ih =>
    intro u P q hP hq hdep
    rcases List.mem_cons.mp hP with rfl | hP
    · have hany : (P.dependsOn.any fun r => u.contains r) = true := by
        rw [List.any_eq_true]
        exact ⟨q, hdep, by simpa [List.contains] using hq⟩
      have hst : V2.staleness fl d sc u P = true := by
        unfold V2.staleness
        rw [hany]
        simp
      simp [V2.decisionsAux, hst]
    · have hq' : q ∈ V2.stepUpdated fl d sc u p := by
        unfold V2.stepUpdated
        split
        · exact List.mem_append_left _ hq
        · exact hq
      exact List.mem_cons_of_mem _ (ih _ P q hP hq' hdep)

/-- Propagation along a declared dependency edge in the v2 loop: with
distinct package names, if the earlier package Q rebuilds, so does
every later package P that declares Q among its dependencies. -/
theorem propagate_along_dep (fl : V2.Flags) (d : V2.Disk) (sc : String → Bool) :
    ∀ (l : List V2.Pkg) (u : List String) (P Q : V2.Pkg),
      (l.map V2.Pkg.name).Nodup → [Q, P].Sublist l → Q.name ∈ P.dependsOn →
      (Q.name, true) ∈ V2.decisionsAux fl d sc l u →
      (P.name, true) ∈ V2.decisionsAux fl d sc l u := by
  intro l
  induction l with
  | nil => intro u P Q _ hsub; exact absurd (hsub.length_le) (by simp)
  | cons p rest ih =>
    intro u P Q hnd hsub hdep hmem
    have hnd' : (rest.map V2.Pkg.name).Nodup := (List.nodup_cons.mp hnd).2
    have hpn : p.name ∉ rest.map V2.Pkg.name := (List.nodup_cons.mp hnd).1
    cases hsub with
    | cons _ hsub' =>
      -- both Q and P are in rest
      have hQrest : Q ∈ rest := hsub'.subset (List.mem_cons_self Q [P])
      rcases List.mem_cons.mp hmem with h1 | h1
      · have : Q.name = p.name := by simpa using congrArg Prod.fst h1
        exact absurd (this ▸ List.mem_map_of_mem V2.Pkg.name hQrest) hpn
      · exact List.mem_cons_of_mem _ (ih _ P Q hnd' hsub' hdep h1)
    | cons₂ _ hsub' =>
      -- the head package is Q itself and P is in rest
      have hPrest : P ∈ rest := hsub'.subset (List.mem_cons_self P [])
      rcases List.mem_cons.mp hmem with h1 | h1
      · have hst : V2.staleness fl d sc u p = true := by
          have h2 := congrArg Prod.snd h1
          simpa using h2.symm
        have hq : p.name ∈ V2.stepUpdated fl d sc u p := by
          simp [V2.stepUpdated, hst]
        exact List.mem_cons_of_mem _
          (rebuild_of_dep_in_updated fl d sc rest _ P p.name hPrest hq hdep)
      · have hmm2 : p.name ∈ rest.map V2.Pkg.name :=
          mem_names_of_mem_decisionsAux fl d sc rest _ p.name true h1
        exact absurd hmm2 hpn

/-- In the v2 list, the names are distinct and every declared
dependency of a package is itself declared strictly earlier. -/
theorem deps_wellFormed :
    (V2.deps.map V2.Pkg.name).Nodup ∧
      ∀ P ∈ V2.deps, ∀ Q ∈ V2.deps, Q.name ∈ P.dependsOn → [Q, P].Sublist V2.deps := by
  constructor
  · decide
  · decide

/-- In the v1 loop, once `deps_rebuilt` is set every later package
rebuilds. -/
theorem v1_rebuild_of_flag (stale0 : String → Bool) :
    ∀ (l : List String) (n : String), n ∈ l → (n, true) ∈ V1.runOrderAux stale0 l true := by
  intro l
  induction l with
  | nil => intro n h; simp at h
  | cons m rest ih =>
    intro n hn
    rcases List.mem_cons.mp hn with rfl | hn
    · simp [V1.runOrderAux]
    · exact List.mem_cons_of_mem _ (by simpa [V1.runOrderAux] using ih n hn)

/-- Every name in a v1 decision trace comes from the processed list. -/
theorem v1_mem_names (stale0 : String → Bool) :
    ∀ (l : List String) (db : Bool) (n : String) (b : Bool),
      (n, b) ∈ V1.runOrderAux stale0 l db → n ∈ l := by
  intro l
  induction l with
  | nil => intro db n b h; simp [V1.runOrderAux] at h
  | cons m rest ih =>
    intro db n b h
    rcases List.mem_cons.mp h with h1 | h1
    · simp at h1
      simp [h1.1]
    · exact List.mem_cons_of_mem _ (ih _ n b h1)

/-- List-order propagation in the v1 loop: with distinct names, if an
earlier package rebuilds then every later package rebuilds. -/
theorem v1_propagate (stale0 : String → Bool) :
    ∀ (l : List String) (db : Bool) (q p : String),
      l.Nodup → [q, p].Sublist l →
      (q, true) ∈ V1.runOrderAux stale0 l db →
      (p, true) ∈ V1.runOrderAux stale0 l db := by
  intro l
  induction l with
  | nil => intro db q p _ hsub; exact absurd (hsub.length_le) (by simp)
  | cons m rest ih =>
    intro db q p hnd hsub hmem
    have hnd' : rest.Nodup := (List.nodup_cons.mp hnd).2
    have hmn : m ∉ rest := (List.nodup_cons.mp hnd).1
    cases hsub with
    | cons _ hsub' =>
      have hqrest : q ∈ rest := hsub'.subset (List.mem_cons_self q [p])
      rcases List.mem_cons.mp hmem with h1 | h1
      · have : q = m := by simpa using congrArg Prod.fst h1
        exact absurd (this ▸ hqrest) hmn
      · exact List.mem_cons_of_mem _ (ih _ q p hnd' hsub' h1)
    | cons₂ _ hsub' =>
      -- the head name is q itself and p is in rest
      have hprest : p ∈ rest := hsub'.subset (List.mem_cons_self p [])
      rcases List.mem_cons.mp hmem with h1 | h1
      · have hq : (stale0 m || db) = true := by
          have h2 := congrArg Prod.snd h1
          simpa using h2.symm
        have hflag : (db || (stale0 m || db)) = true := by
          rw [hq]; simp
        rw [show V1.runOrderAux stale0 (m :: rest) db =
              (m, stale0 m || db) :: V1.runOrderAux stale0 rest (db || (stale0 m || db)) from rfl,
            hflag]
        exact List.mem_cons_of_mem _ (v1_rebuild_of_flag stale0 rest p hprest)
      · exact absurd (v1_mem_names stale0 rest _ m true h1) hmn

end MpvBuild

namespace MpvBuild

/-- C2: for every pair of packages P and Q with Q in the depends_on set
of P (v2 variant), if Q is rebuilt during a run then P is also rebuilt
during that same run; and in the list-order variant (v1), every package
declared after a rebuilt package is rebuilt in the same run. -/
theorem c2_dependency_propagation :
    (∀ (fl : V2.Flags) (d : V2.Disk) (sc : String → Bool) (P Q : V2.Pkg),
      P ∈ V2.deps → Q ∈ V2.deps → Q.name ∈ P.dependsOn →
      (Q.name, true) ∈ V2.decisions fl d sc → (P.name, true) ∈ V2.decisions fl d sc) ∧
    (∀ (stale0 : String → Bool) (q p : String), [q, p].Sublist V1.depNames →
      (q, true) ∈ V1.runOrder stale0 → (p, true) ∈ V1.runOrder stale0) := by
  constructor
  · intro fl d sc P Q hP hQ hdep hmem
    exact propagate_along_dep fl d sc V2.deps [] P Q deps_wellFormed.1
      (deps_wellFormed.2 P hP Q hQ hdep) hdep hmem
  · intro stale0 q p hsub hmem
    exact v1_propagate stale0 V1.depNames false q p (by decide) hsub hmem

/-- Witness for C2: when only the zlib source changes, libpng (which
depends on zlib) rebuilds in the same run, in both variants. -/
theorem c2_witness :
    ("libpng", true) ∈ V2.decisions ⟨false, false, false⟩
        ⟨fun _ => true, fun _ => true, fun _ => true⟩ (fun n => n == "zlib") ∧
      ("libpng", true) ∈ V1.runOrder (fun n => n == "zlib") :=
  ⟨c2_dependency_propagation.1 ⟨false, false, false⟩
      ⟨fun _ => true, fun _ => true, fun _ => true⟩ (fun n => n == "zlib")
      ⟨"libpng", true, ["zlib"]⟩ ⟨"zlib", true, []⟩ (by decide) (by decide) (by decide) (by decide),
    c2_dependency_propagation.2 (fun n => n == "zlib") "zlib" "libpng" (by decide) (by decide)⟩

/-- mrun returns normally exactly when every command exits zero. -/
theorem mrunCmds_ok_iff (codes : List Nat) :
    V2.mrunCmds codes = .ok () ↔ codes.all (fun c => c == 0) = true := by
  induction codes with
  | nil => simp [V2.mrunCmds]
  | cons c cs ih =>
    by_cases h : c = 0
    · subst h
      simpa [V2.mrunCmds, V2.runCmd] using ih
    · simp [V2.mrunCmds, V2.runCmd, h]

/-- C3: in a rebuild of a package with its source tree present, the
completion marker is written (and the package recorded as rebuilt) if
and only if every build command exited with status zero; when some
command exits nonzero, the raised failure aborts the run before the
marker write. -/
theorem c3_marker_iff_all_zero (fl : V2.Flags) (d : V2.Disk) (sc : String → Bool)
    (u : List String) (p : V2.Pkg) (codes : List Nat)
    (hst : V2.staleness fl d sc u p = true) (hsrc : d.srcDir p.name = true) :
    (V2.execPkg fl d sc u p codes = .ok (true, true) ↔
        codes.all (fun c => c == 0) = true) ∧
      (codes.all (fun c => c == 0) = false →
        ∃ c, V2.execPkg fl d sc u p codes = .error (.cmdFailed p.name c)) := by
  rcases hm : V2.mrunCmds codes with e | v
  · have hall : codes.all (fun c => c == 0) = false := by
      rcases Bool.eq_false_or_eq_true (codes.all fun c => c == 0) with ht | hf
      · exact absurd ((mrunCmds_ok_iff codes).mpr ht) (by simp [hm])
      · exact hf
    constructor
    · simp [V2.execPkg, hst, hsrc, hm, hall]
    · intro _
      exact ⟨e, by simp [V2.execPkg, hst, hsrc, hm]⟩
  · cases v
    have hall : codes.all (fun c => c == 0) = true := (mrunCmds_ok_iff codes).mp hm
    constructor
    · simp [V2.execPkg, hst, hsrc, hm, hall]
    · intro hfalse
      rw [hall] at hfalse
      cases hfalse

/-- Witness for C3: a stale package with two zero-status build commands
ends with its marker written. -/
theorem c3_witness :
    V2.execPkg ⟨false, false, false⟩ ⟨fun _ => false, fun _ => true, fun _ => true⟩
        (fun _ => false) [] ⟨"expat", true, []⟩ [0, 0] = .ok (true, true) :=
  ((c3_marker_iff_all_zero ⟨false, false, false⟩
      ⟨fun _ => false, fun _ => true, fun _ => true⟩ (fun _ => false) []
      ⟨"expat", true, []⟩ [0, 0] (by decide) rfl).1).mpr (by decide)

end MpvBuild

namespace MpvBuild

set_option maxHeartbeats 1000000 in
/-- C4: corruption self-healing in the v2 loop.  From a fully built
state with unchanged sources and no clean flag, deleting only the
output artifact of one checked package t makes the next run rebuild
exactly t together with its transitive dependents: t rebuilds, every
package declared before t skips, and the whole decision trace equals
membership in the downstream closure of t. -/
theorem c4_corruption_selfheal :
    ∀ t ∈ V2.deps, V2.hasOutputCheck t.name = true →
      ((t.name, true) ∈ V2.scenarioDecisions t.name) ∧
      (((V2.scenarioDecisions t.name).takeWhile (fun x => x.1 != t.name)).all
          (fun x => x.2 == false) = true) ∧
      (V2.scenarioDecisions t.name =
        V2.deps.map (fun p => (p.name, (V2.downstream t.name).contains p.name))) := by
  decide

/-- Witness for C4 at the zlib package: the decision trace is exactly
the downstream closure of zlib. -/
theorem c4_witness :
    V2.scenarioDecisions "zlib" =
      V2.deps.map (fun p => (p.name, (V2.downstream "zlib").contains p.name)) :=
  (c4_corruption_selfheal ⟨"zlib", true, []⟩ (by decide) (by decide)).2.2

/-- With the clean flag set, every package in the list rebuilds. -/
theorem decisionsAux_all_rebuild (fl : V2.Flags) (d : V2.Disk) (sc : String → Bool)
    (h : fl.clean = true) :
    ∀ (l : List V2.Pkg) (u : List String),
      V2.decisionsAux fl d sc l u = l.map (fun p => (p.name, true)) := by
  intro l
  induction l with
  | nil => intro u; rfl
  | cons p rest ih =>
    intro u
    have hst : V2.staleness fl d sc u p = true := by simp [V2.staleness, h]
    simp [V2.decisionsAux, hst, ih]

/-- C5: a run with the clean flag first wipes the installed tree (all
markers and artifacts gone; the working tree is likewise recreated) and
then rebuilds every package in the dependency list and both top-level
projects, regardless of which completion markers existed before. -/
theorem c5_clean_rebuilds_everything (fl : V2.Flags) (d : V2.Disk) (sc : String → Bool)
    (h : fl.clean = true) :
    (∀ n, (V2.afterCleanWipe fl d).marker n = false) ∧
      (∀ n, (V2.afterCleanWipe fl d).artifact n = false) ∧
      V2.decisions fl (V2.afterCleanWipe fl d) sc = V2.deps.map (fun p => (p.name, true)) ∧
      (∀ (m fc : Bool) (u : List String), V2.ffmpegStale fl m fc u = true) ∧
      (∀ (m mc : Bool) (u : List String), V2.mpvStale fl m mc u = true) := by
  refine ⟨?_, ?_, ?_, ?_, ?_⟩
  · intro n; simp [V2.afterCleanWipe, h]
  · intro n; simp [V2.afterCleanWipe, h]
  · exact decisionsAux_all_rebuild fl _ sc h V2.deps []
  · intro m fc u; simp [V2.ffmpegStale, h]
  · intro m mc u; simp [V2.mpvStale, h]

/-- Witness for C5: a clean run on a fully built state rebuilds all 35
packages. -/
theorem c5_witness :
    V2.decisions ⟨true, false, false⟩
        (V2.afterCleanWipe ⟨true, false, false⟩ ⟨fun _ => true, fun _ => true, fun _ => true⟩)
        (fun _ => false) = V2.deps.map (fun p => (p.name, true)) :=
  (c5_clean_rebuilds_everything ⟨true, false, false⟩
    ⟨fun _ => true, fun _ => true, fun _ => true⟩ (fun _ => false) rfl).2.2.1

end MpvBuild

namespace MpvBuild

/-- Counterexample to C6 as stated: with the update-skip flag set and
the expat source tree (a VCS-sourced package) entirely absent, but all
completion markers and output artifacts intact, the v2 run does not
abort at all: git_sync returns changed=False with zero network
commands, every package takes the skip branch, and the loop ends
normally.  The claim asserts the run aborts with a nonzero exit before
any package build begins. -/
theorem c6_counterexample :
    ((⟨false, true, false⟩ : V2.Flags).skipUpdates = true) ∧
      (V2.syncPkg true false false = ⟨false, 0⟩) ∧
      (V2.deps.any (fun p => p.name == "expat" && p.hasUrl) = true) ∧
      ((⟨fun _ => true, fun _ => true, fun n => n != "expat"⟩ : V2.Disk).srcDir "expat"
        = false) ∧
      (V2.execDeps ⟨false, true, false⟩ ⟨fun _ => true, fun _ => true, fun n => n != "expat"⟩
          (fun _ => false) (fun _ => [0]) =
        .ok (V2.deps.map (fun p => (p.name, false)), [])) :=
  ⟨rfl, rfl, by decide, by decide, rfl⟩

/-- C6 (amended): with the update-skip flag, git_sync performs no
network command and reports changed=False for every VCS package, even
one whose checkout is entirely absent; the run does not abort up front.
It fails only when such a package actually needs a rebuild, at the
working-copy creation step, before any of its build commands run. -/
theorem c6_skip_updates_behaviour :
    (∀ g h, V2.syncPkg true g h = ⟨false, 0⟩) ∧
      (∀ (fl : V2.Flags) (d : V2.Disk) (sc : String → Bool) (u : List String)
          (p : V2.Pkg) (codes : List Nat),
        V2.staleness fl d sc u p = true → d.srcDir p.name = false →
        V2.execPkg fl d sc u p codes = .error (.copyFailed p.name)) := by
  constructor
  · intro g h
    cases g <;> rfl
  · intro fl d sc u p codes hst hsrc
    simp [V2.execPkg, hst, hsrc]

/-- Witness for C6 (amended): a stale package with an absent source
tree aborts the run at the copy step. -/
theorem c6_witness :
    V2.execPkg ⟨false, true, false⟩ ⟨fun _ => false, fun _ => true, fun _ => false⟩
        (fun _ => false) [] ⟨"expat", true, []⟩ [0] = .error (.copyFailed "expat") :=
  c6_skip_updates_behaviour.2 ⟨false, true, false⟩
    ⟨fun _ => false, fun _ => true, fun _ => false⟩ (fun _ => false) [] ⟨"expat", true, []⟩
    [0] (by decide) rfl

/-- Counterexample to C7 as stated: in the build.py variant, the
per-package fixups after the skip/rebuild branch run even for skipped
packages, so a skipped gettext still rewrites the libintl pkgconfig
file under the install root.  The claim asserts a skipped package
causes no file creation or modification beyond a log line. -/
theorem c7_counterexample :
    (("gettext", false) ∈ V1.runOrder (fun _ => false)) ∧
      (V1.pkgEffects false "gettext" (fun _ => false) (fun _ _ => false) =
        ["write:lib/pkgconfig/libintl.pc"]) := by
  decide

/-- C7 (amended): in the canonical v2 variant the claim holds: a
package whose staleness predicate evaluates to skip causes no install
tree file effect at all, only the log line. -/
theorem c7_skip_no_side_effects (fl : V2.Flags) (d : V2.Disk) (sc : String → Bool)
    (u : List String) (p : V2.Pkg) (h : V2.staleness fl d sc u p = false) :
    V2.pkgEffects fl d sc u p = [] := by
  have he : V2.effMarker d p.name = true := by
    unfold V2.staleness at h
    rcases Bool.eq_false_or_eq_true (V2.effMarker d p.name) with ht | hf
    · exact ht
    · rw [hf] at h
      simp at h
  have hm : V2.markerRemovedByCheck d p.name = false := by
    unfold V2.effMarker at he
    unfold V2.markerRemovedByCheck
    cases hM : d.marker p.name <;> cases hC : V2.hasOutputCheck p.name <;>
      cases hA : d.artifact p.name <;> simp_all
  simp [V2.pkgEffects, hm, h]

/-- Witness for C7 (amended): a fully built, unchanged expat is skipped
with an empty effect list. -/
theorem c7_witness :
    V2.pkgEffects ⟨false, false, false⟩ ⟨fun _ => true, fun _ => true, fun _ => true⟩
        (fun _ => false) [] ⟨"expat", true, []⟩ = [] :=
  c7_skip_no_side_effects ⟨false, false, false⟩ ⟨fun _ => true, fun _ => true, fun _ => true⟩
    (fun _ => false) [] ⟨"expat", true, []⟩ (by decide)

/-- Counterexample to C8 as stated: applying the build.py patch
operation twice with flags "-ldl" to the content "Libs:" yields
"Libs:  " while one application yields "Libs: ", so the operation is
not idempotent for every flags string: the appended flags are
themselves removed by the dynamic-loading strip, and each pass inserts
them again with one more space left behind. -/
theorem c8_counterexample :
    patchPcContent (patchPcContent "Libs:" "-ldl") "-ldl" ≠ patchPcContent "Libs:" "-ldl" := by
  decide

/-- C8 (amended): the patch operation is idempotent for every content
and flags string such that one application leaves the flags present and
no dynamic-loading flag in the result, which holds for the flag strings
the scripts pass; it fails in general exactly when the strip undoes the
append. -/
theorem c8_conditional_idempotent (c libs : String)
    (h1 : pyIn libs (patchPcContent c libs) = true)
    (h2 : pyIn "-ldl" (patchPcContent c libs) = false) :
    patchPcContent (patchPcContent c libs) libs = patchPcContent c libs := by
  have ha : addLibs (patchPcContent c libs) libs = patchPcContent c libs := by
    unfold addLibs
    rw [h1]
    simp
  have hs : stripLdl (patchPcContent c libs) = patchPcContent c libs := by
    unfold stripLdl
    rw [h2]
    simp
  calc patchPcContent (patchPcContent c libs) libs
      = stripLdl (addLibs (patchPcContent c libs) libs) := rfl
    _ = stripLdl (patchPcContent c libs) := by rw [ha]
    _ = patchPcContent c libs := hs

/-- Witness for C8 (amended): the real flag string "-lm" on a plain
Libs line is a fixed point after one application. -/
theorem c8_witness :
    patchPcContent (patchPcContent "Libs: -lfoo" "-lm") "-lm" =
      patchPcContent "Libs: -lfoo" "-lm" :=
  c8_conditional_idempotent "Libs: -lfoo" "-lm" (by decide) (by decide)

/-- C9: when the path names no existing file, the patch operation is a
total no-op on the file system: it neither creates the file nor touches
any other path. -/
theorem c9_missing_file_noop (fs : String → Option String) (path libs : String)
    (h : fs path = none) :
    ∀ q, patchPcFile fs path libs q = fs q := by
  intro q
  unfold patchPcFile
  rw [h]

/-- Witness for C9: patching an absent file in an empty file system
leaves every path absent. -/
theorem c9_witness :
    patchPcFile (fun _ => none) "lib/pkgconfig/absent.pc" "-lm" "lib/pkgconfig/other.pc"
      = none :=
  c9_missing_file_noop (fun _ => none) "lib/pkgconfig/absent.pc" "-lm" rfl
    "lib/pkgconfig/other.pc"

/-- C10: after the final v2 cleanup pass, the bin directory contains
only entries from the allow-list; every other file or subdirectory is
deleted. -/
theorem c10_bin_allowlist (entries : List String) (e : String)
    (he : e ∈ binCleanup entries) : e ∈ allowedBinFiles := by
  simp only [binCleanup, List.mem_filter] at he
  exact of_decide_eq_true he.2

/-- Witness for C10: the mpv binary survives a cleanup that drops a
stray DLL and a stray directory. -/
theorem c10_witness : "mpv.exe" ∈ allowedBinFiles :=
  c10_bin_allowlist ["mpv.exe", "stray.dll", "docs"] "mpv.exe" (by decide)

end MpvBuild
